import Mathlib

/-!
Verification of the kes CredHub keystore adapter and the static-list keystore.

Byte sequences and strings are modelled uniformly as `List Nat`, one entry
per byte (theorems carry explicit `< 256` bounds where the arithmetic of the
codec needs them).  HTTP responses are modelled by the exact projections the
Go code consumes: transport error, status code, status text, raw body bytes,
and the outcome of the stdlib JSON decoding of the body into the one struct
shape the operation reads.
-/

namespace Credhub

/-! ### Base64 codec -/

/-- Standard base64 alphabet, as byte values: A-Z, a-z, 0-9, plus, slash. -/
def b64Alphabet : List Nat :=
  (List.range 26).map (fun i => 65 + i) ++
  (List.range 26).map (fun i => 97 + i) ++
  (List.range 10).map (fun i => 48 + i) ++ [43, 47]

/-- Byte value of the base64 padding character. -/
def padChar : Nat := 61

/-- Maps a sextet (0..63) to its base64 alphabet byte. -/
def sextetToChar (n : Nat) : Nat := b64Alphabet.getD n 0

/-- Maps a base64 alphabet byte back to its sextet; none for bytes outside the alphabet. -/
def charToSextet (c : Nat) : Option Nat := b64Alphabet.findIdx? (fun x => x = c)

/-- Modelled from the spec: standard base64 encoding of a byte sequence
(the repository's base64 helper is not under src/; the spec and the contract
tests fix standard base64 with padding). -/
def b64Encode : List Nat → List Nat
  | [] => []
  | [b1] => [sextetToChar (b1 / 4), sextetToChar (b1 % 4 * 16), padChar, padChar]
  | [b1, b2] => [sextetToChar (b1 / 4), sextetToChar (b1 % 4 * 16 + b2 / 16),
                 sextetToChar (b2 % 16 * 4), padChar]
  | b1 :: b2 :: b3 :: rest =>
      sextetToChar (b1 / 4) :: sextetToChar (b1 % 4 * 16 + b2 / 16) ::
      sextetToChar (b2 % 16 * 4 + b3 / 64) :: sextetToChar (b3 % 64) :: b64Encode rest

/-- Modelled from the spec: standard base64 decoding; any malformed input
(bad length, byte outside the alphabet, padding not at the end) is a decode
error, returned as none. -/
def b64Decode : List Nat → Option (List Nat)
  | [] => some []
  | c1 :: c2 :: c3 :: c4 :: rest => do
    let s1 ← charToSextet c1
    let s2 ← charToSextet c2
    if c3 = padChar then
      if c4 = padChar ∧ rest = [] then pure [s1 * 4 + s2 / 16] else none
    else do
      let s3 ← charToSextet c3
      if c4 = padChar then
        if rest = [] then pure [s1 * 4 + s2 / 16, s2 % 16 * 16 + s3 / 4] else none
      else do
        let s4 ← charToSextet c4
        let bs ← b64Decode rest
        pure ((s1 * 4 + s2 / 16) :: (s2 % 16 * 16 + s3 / 4) :: (s3 % 4 * 64 + s4) :: bs)
  | _ => none

theorem charToSextet_sextetToChar : ∀ s, s < 64 → charToSextet (sextetToChar s) = some s := by
  decide

theorem sextetToChar_ne_pad : ∀ s, s < 64 → sextetToChar s ≠ padChar := by
  decide

/-- Decoding an encoded byte sequence restores the bytes. -/
theorem b64Decode_b64Encode : ∀ (v : List Nat), (∀ b ∈ v, b < 256) →
    b64Decode (b64Encode v) = some v
  | [], _ => by simp [b64Encode, b64Decode]
  | [b1], h => by
    have hb1 : b1 < 256 := h b1 (by simp)
    have e1 := charToSextet_sextetToChar (b1 / 4) (by omega)
    have e2 := charToSextet_sextetToChar (b1 % 4 * 16) (by omega)
    simp only [b64Encode, b64Decode]
    simp [e1, e2]
    omega
  | [b1, b2], h => by
    have hb1 : b1 < 256 := h b1 (by simp)
    have hb2 : b2 < 256 := h b2 (by simp)
    have e1 := charToSextet_sextetToChar (b1 / 4) (by omega)
    have e2 := charToSextet_sextetToChar (b1 % 4 * 16 + b2 / 16) (by omega)
    have e3 := charToSextet_sextetToChar (b2 % 16 * 4) (by omega)
    have n3 := sextetToChar_ne_pad (b2 % 16 * 4) (by omega)
    simp only [b64Encode, b64Decode]
    simp [e1, e2, e3, n3]
    omega
  | b1 :: b2 :: b3 :: rest, h => by
    have hb1 : b1 < 256 := h b1 (by simp)
    have hb2 : b2 < 256 := h b2 (by simp)
    have hb3 : b3 < 256 := h b3 (by simp)
    have ih := b64Decode_b64Encode rest (fun b hb => h b (by simp [hb]))
    have e1 := charToSextet_sextetToChar (b1 / 4) (by omega)
    have e2 := charToSextet_sextetToChar (b1 % 4 * 16 + b2 / 16) (by omega)
    have e3 := charToSextet_sextetToChar (b2 % 16 * 4 + b3 / 64) (by omega)
    have n3 := sextetToChar_ne_pad (b2 % 16 * 4 + b3 / 64) (by omega)
    have e4 := charToSextet_sextetToChar (b3 % 64) (by omega)
    have n4 := sextetToChar_ne_pad (b3 % 64) (by omega)
    match rest with
    | [] =>
      simp only [b64Encode, b64Decode]
      simp [e1, e2, e3, e4, n3, n4, b64Decode]
      omega
    | r1 :: rs =>
      simp only [b64Encode] at ih ⊢
      simp only [b64Decode]
      simp [e1, e2, e3, e4, n3, n4, ih]
      omega

/-! ### Value codec: BytesToJsonString / JsonStringToBytes -/

/-- Tests whether a byte is a UTF-8 continuation byte (0x80..0xBF). -/
def isCont (b : Nat) : Bool := 0x80 ≤ b && b ≤ 0xBF

/-- Modelled from the spec: validity of a byte sequence as text in the
transport's assumed encoding (UTF-8, following the Go standard library
rules: no surrogates, no overlong forms, at most U+10FFFF).  The helper the
source calls is in a repository file not under src/. -/
def utf8Valid : List Nat → Bool
  | [] => true
  | b :: rest =>
    if b ≤ 0x7F then utf8Valid rest
    else if 0xC2 ≤ b && b ≤ 0xDF then
      match rest with
      | b2 :: r => isCont b2 && utf8Valid r
      | [] => false
    else if b = 0xE0 then
      match rest with
      | b2 :: b3 :: r => (0xA0 ≤ b2 && b2 ≤ 0xBF) && isCont b3 && utf8Valid r
      | _ => false
    else if (0xE1 ≤ b && b ≤ 0xEC) || (0xEE ≤ b && b ≤ 0xEF) then
      match rest with
      | b2 :: b3 :: r => isCont b2 && isCont b3 && utf8Valid r
      | _ => false
    else if b = 0xED then
      match rest with
      | b2 :: b3 :: r => (0x80 ≤ b2 && b2 ≤ 0x9F) && isCont b3 && utf8Valid r
      | _ => false
    else if b = 0xF0 then
      match rest with
      | b2 :: b3 :: b4 :: r => (0x90 ≤ b2 && b2 ≤ 0xBF) && isCont b3 && isCont b4 && utf8Valid r
      | _ => false
    else if 0xF1 ≤ b && b ≤ 0xF3 then
      match rest with
      | b2 :: b3 :: b4 :: r => isCont b2 && isCont b3 && isCont b4 && utf8Valid r
      | _ => false
    else if b = 0xF4 then
      match rest with
      | b2 :: b3 :: b4 :: r => (0x80 ≤ b2 && b2 ≤ 0x8F) && isCont b3 && isCont b4 && utf8Valid r
      | _ => false
    else false

/-- Byte form of the reserved marker string "Base64:". -/
def b64Marker : List Nat := [66, 97, 115, 101, 54, 52, 58]

/-- Modelled from the spec: the value codec's encode direction (the source
calls it BytesToJsonString; the defining file is not under src/).  If forcing
is on, or the bytes are not valid UTF-8 text, or the text itself starts with
the reserved marker "Base64:", the output is the marker followed by the
base64 form; otherwise the raw bytes stand as the JSON string. -/
def BytesToJsonString (value : List Nat) (forceBase64 : Bool) : List Nat :=
  if forceBase64 || !utf8Valid value || b64Marker.isPrefixOf value then
    b64Marker ++ b64Encode value
  else
    value

/-- Modelled from the spec: the value codec's decode direction (the source
calls it JsonStringToBytes; the defining file is not under src/).  A string
starting with the marker "Base64:" is stripped of it and base64-decoded
(failure is an error, none); any other string stands for its literal bytes. -/
def JsonStringToBytes (s : List Nat) : Option (List Nat) :=
  if b64Marker.isPrefixOf s then
    b64Decode (s.drop b64Marker.length)
  else
    some s

theorem isPfxOf_append (p k : List Nat) : p.isPrefixOf (p ++ k) = true := by
  induction p with
  | nil => simp [List.isPrefixOf]
  | cons a t ih => simp [List.isPrefixOf, ih]

theorem jsonString_roundTrip (v : List Nat) (hv : ∀ b ∈ v, b < 256) (force : Bool) :
    JsonStringToBytes (BytesToJsonString v force) = some v := by
  unfold BytesToJsonString JsonStringToBytes
  by_cases hc : (force || !utf8Valid v || b64Marker.isPrefixOf v) = true
  · rw [if_pos hc]
    rw [if_pos (isPfxOf_append b64Marker (b64Encode v)), List.drop_left]
    exact b64Decode_b64Encode v hv
  · rw [if_neg hc]
    have hnp : ¬ b64Marker.isPrefixOf v = true := by
      intro hp
      simp [hp] at hc
    rw [if_neg hnp]

/-- Byte form of the test value "string-value" from the contract tests. -/
def strValueBytes : List Nat := [115, 116, 114, 105, 110, 103, 45, 118, 97, 108, 117, 101]

/-- Byte form of "c3RyaW5nLXZhbHVl", the base64 form the contract tests expect. -/
def strValueB64Bytes : List Nat :=
  [99, 51, 82, 121, 97, 87, 53, 110, 76, 88, 90, 104, 98, 72, 86, 108]

theorem encode_forced_matches_contract_test :
    BytesToJsonString strValueBytes true = b64Marker ++ strValueB64Bytes := by decide

theorem encode_plain_matches_contract_test :
    BytesToJsonString strValueBytes false = strValueBytes := by decide

theorem encode_invalid_utf8_is_marked :
    BytesToJsonString [0, 1, 2, 3, 4, 5, 6, 7, 8, 9, 10, 80, 114, 122, 255, 121, 107, 108, 255]
        false =
      b64Marker ++ b64Encode [0, 1, 2, 3, 4, 5, 6, 7, 8, 9, 10, 80, 114, 122, 255, 121, 107, 108, 255] := by
  decide

theorem encode_marked_text_is_reencoded :
    BytesToJsonString (b64Marker ++ strValueBytes) false =
      b64Marker ++ b64Encode (b64Marker ++ strValueBytes) := by decide

/-! ### Remote store: response model and operation semantics -/

/-- Which store operation produced a generic remote error (the Go code builds
a distinct fmt.Errorf message per operation). -/
inductive RemoteOp where
  | get
  | put
  | del
  | list
deriving DecidableEq

/-- Errors the remote store operations can return, mirroring the error values
built in credhub.go: the kv sentinels, the per-operation fmt.Errorf messages
carrying status text and raw body, the multiple-entries violation, the JSON
decode failure, the base64 decode failure inside JsonStringToBytes, and a
transport-level error passed through from the HTTP client. -/
inductive GoErr where
  | errNotExists
  | errExists
  | remoteErr (op : RemoteOp) (status : List Nat) (body : List Nat)
  | multipleEntries (n : Nat)
  | jsonDecodeErr
  | base64DecodeErr
  | transportErr (code : Nat)
deriving DecidableEq

/-- Modelled from the spec: the HTTP client's 2xx test (the helper lives in a
repository file not under src/; the spec requires a 2xx status). -/
def IsStatusCode2xx (code : Nat) : Bool := 200 ≤ code && code < 300

/-- The projections of an HTTP response that credhub.go consumes: the
transport-level error, the numeric status code, the status text, and the raw
body bytes io.ReadAll would produce. -/
structure HttpResponse where
  err : Option Nat
  statusCode : Nat
  status : List Nat
  bodyRaw : List Nat
deriving DecidableEq

/-- A Get response together with the outcome of the stdlib JSON decoding of
its body into the Data list of Value strings: none is a decode error,
some vs is the list of the value strings of the returned versions. -/
structure GetResponse extends HttpResponse where
  dataValues : Option (List (List Nat))
deriving DecidableEq

/-- A List response together with the outcome of the stdlib JSON decoding of
its body into the Credentials list of Name strings. -/
structure ListResponse extends HttpResponse where
  credNames : Option (List (List Nat))
deriving DecidableEq

/-- Byte value of the path separator between namespace and key. -/
def slashByte : Nat := 47

/-- Per-store configuration fields the operations read, from credhub.go. -/
structure Config where
  Namespace : List Nat
  ForceBase64ValuesEncoding : Bool

namespace Store

/-- Get from credhub.go: transport error passes through; 404 is ErrNotExists;
any other non-2xx is the generic get error with status text and raw body; on
2xx the decoded data list decides: decode failure is an error, zero entries
is ErrNotExists, more than one entry is the multiple-entries error, and one
entry yields JsonStringToBytes of its value string. -/
def Get (r : GetResponse) : Except GoErr (List Nat) :=
  match r.err with
  | some e => .error (.transportErr e)
  | none =>
    if r.statusCode = 404 then .error .errNotExists
    else if !IsStatusCode2xx r.statusCode then .error (.remoteErr .get r.status r.bodyRaw)
    else
      match r.dataValues with
      | none => .error .jsonDecodeErr
      | some data =>
        if data.length = 0 then .error .errNotExists
        else if data.length > 1 then .error (.multipleEntries data.length)
        else
          match JsonStringToBytes (data.headD []) with
          | some v => .ok v
          | none => .error .base64DecodeErr

/-- Delete from credhub.go: transport error passes through; 404 is
ErrNotExists; any other non-2xx is the generic delete error with status text
and raw body; 2xx is success. -/
def Delete (r : HttpResponse) : Except GoErr Unit :=
  match r.err with
  | some e => .error (.transportErr e)
  | none =>
    if r.statusCode = 404 then .error .errNotExists
    else if !IsStatusCode2xx r.statusCode then .error (.remoteErr .del r.status r.bodyRaw)
    else .ok ()

/-- The JSON object the private put helper serializes and sends, from
credhub.go: name is namespace/key, type is the literal "value", value is the
codec encoding of the bytes. -/
structure PutRequest where
  name : List Nat
  type : List Nat
  value : List Nat
deriving DecidableEq

/-- Byte form of the literal "value" used as the credential type. -/
def valueTypeBytes : List Nat := [118, 97, 108, 117, 101]

/-- Request building of the private put helper in credhub.go. -/
def putRequest (cfg : Config) (name value : List Nat) : PutRequest :=
  { name := cfg.Namespace ++ slashByte :: name
    type := valueTypeBytes
    value := BytesToJsonString value cfg.ForceBase64ValuesEncoding }

/-- Response interpretation of the private put helper in credhub.go:
transport error passes through; 2xx is success; otherwise the generic set
error with status text and raw body. -/
def putInterp (r : HttpResponse) : Except GoErr Unit :=
  match r.err with
  | some e => .error (.transportErr e)
  | none =>
    if IsStatusCode2xx r.statusCode then .ok ()
    else .error (.remoteErr .put r.status r.bodyRaw)

/-- The private put helper from credhub.go: the write request it issues and
the result it returns. -/
def put (cfg : Config) (name value : List Nat) (r : HttpResponse) :
    PutRequest × Except GoErr Unit :=
  (putRequest cfg name value, putInterp r)

/-- Observable coordination facts of one Create or Set call: the key handed
to the single-flight group, if any, and whether the put write was issued. -/
structure OpTrace where
  dedupKey : Option (List Nat)
  putIssued : Bool
deriving DecidableEq

/-- Create from credhub.go, as a function of the Get outcome and of the
response the put write would receive: the whole sequence runs under
sfGroup.Do keyed namespace/key; a Get value means ErrExists without writing,
a Get ErrNotExists triggers the put write and returns its result, and any
other Get error is returned unchanged without writing. -/
def Create (cfg : Config) (name value : List Nat)
    (getRes : Except GoErr (List Nat)) (putResp : HttpResponse) :
    OpTrace × Except GoErr Unit :=
  let inner : Bool × Except GoErr Unit :=
    match getRes with
    | .ok _ => (false, .error .errExists)
    | .error .errNotExists => (true, (put cfg name value putResp).2)
    | .error e => (false, .error e)
  ({ dedupKey := some (cfg.Namespace ++ slashByte :: name), putIssued := inner.1 }, inner.2)

/-- Set from credhub.go: it also wraps the unconditional put in sfGroup.Do
keyed namespace/key, and always issues the write. -/
def Set (cfg : Config) (name value : List Nat) (putResp : HttpResponse) :
    OpTrace × PutRequest × Except GoErr Unit :=
  ({ dedupKey := some (cfg.Namespace ++ slashByte :: name), putIssued := true },
   put cfg name value putResp)

end Store

/-! ### List iterator -/

/-- The keysIter state from credhub.go: the materialized key slice, the
cursor, and the value ctx.Err() returns for the associated context
(none models a nil error). -/
structure keysIter where
  keys : List (List Nat)
  index : Nat
  ctxErr : Option Nat
deriving DecidableEq

namespace keysIter

/-- Next from credhub.go: when the cursor is inside the slice it returns the
current key and advances; otherwise the key stays empty; the returned flag
compares the advanced cursor against the slice length. -/
def Next (s : keysIter) : (List Nat × Bool) × keysIter :=
  let p : List Nat × Nat :=
    if h : s.index < s.keys.length then (s.keys.get ⟨s.index, h⟩, s.index + 1)
    else ([], s.index)
  ((p.1, decide (p.2 < s.keys.length)), { s with index := p.2 })

/-- Close from credhub.go: drops the retained key slice and returns the
context's error. -/
def Close (s : keysIter) : Option Nat × keysIter :=
  (s.ctxErr, { s with keys := [] })

/-- Outputs of the first m Next calls, in order. -/
def nextOutputs (s : keysIter) : Nat → List (List Nat × Bool)
  | 0 => []
  | m + 1 =>
    let r := s.Next
    r.1 :: nextOutputs r.2 m

end keysIter

/-- Go strings.TrimPrefix: drops p from the front of s when it is a prefix,
otherwise returns s unchanged. -/
def trimPfx (s p : List Nat) : List Nat :=
  if p.isPrefixOf s then s.drop p.length else s

namespace Store

/-- List from credhub.go: transport error passes through; non-2xx is the
generic list error with status text and raw body; JSON decode failure is an
error; otherwise every returned credential name is stripped of the
namespace/ path and the iterator starts at cursor zero. -/
def List' (cfg : Config) (r : ListResponse) (ctxErr : Option Nat) :
    Except GoErr keysIter :=
  match r.err with
  | some e => .error (.transportErr e)
  | none =>
    if !IsStatusCode2xx r.statusCode then .error (.remoteErr .list r.status r.bodyRaw)
    else
      match r.credNames with
      | none => .error .jsonDecodeErr
      | some names =>
        .ok { keys := names.map (fun n => trimPfx n (cfg.Namespace ++ [slashByte]))
              index := 0
              ctxErr := ctxErr }

end Store

/-- The outputs the spec describes for an iterator over keys ks: the j-th
call yields the j-th key with the flag saying whether a further key remains,
and every call past the end yields the empty key and false.  Written from
the spec's words, to be compared with keysIter.nextOutputs. -/
def specIterOutputs (ks : List (List Nat)) : Nat → Nat → List (List Nat × Bool)
  | _, 0 => []
  | j, m + 1 =>
    (if h : j < ks.length then (ks.get ⟨j, h⟩, decide (j + 1 < ks.length)) else ([], false)) ::
      specIterOutputs ks (j + 1) m

/-! ### Dedup coordinator model and concurrent Create batches -/

instance instDecEqExcept {ε α : Type} [DecidableEq ε] [DecidableEq α] :
    DecidableEq (Except ε α) := fun
  | .ok a, .ok b =>
    if h : a = b then .isTrue (by rw [h]) else .isFalse (by intro hc; cases hc; exact h rfl)
  | .ok _, .error _ => .isFalse (by intro hc; cases hc)
  | .error _, .ok _ => .isFalse (by intro hc; cases hc)
  | .error e, .error f =>
    if h : e = f then .isTrue (by rw [h]) else .isFalse (by intro hc; cases hc; exact h rfl)

/-- Modelled from the spec: the Dedup Coordinator (spec 4.3).  Concurrent
invocations sharing a dedup key observe exactly one execution of the work
and all receive that single execution's result; m is the number of callers
sharing the one in-flight execution. -/
def sfDoShared (m : Nat) (workResult : Except GoErr Unit) : List (Except GoErr Unit) :=
  List.replicate m workResult

/-- Runs successive flights of concurrent Create callers against an abstract
backend: each schedule entry names the key the flight's Create calls share
and how many callers share the one in-flight execution; exKeys lists the
keys the backend currently holds.  Per flight, the Create work runs once —
its Get observing the existing value or ErrNotExists according to exKeys —
and all of the flight's callers receive that one result.  Returns, per
flight, the key and its callers' results, and the total number of write
requests issued. -/
def runCreateFlightsK (cfg : Config) (value sample : List Nat)
    (putResp : HttpResponse) :
    List (List Nat) → List (List Nat × Nat) →
      List (List Nat × List (Except GoErr Unit)) × Nat
  | _, [] => ([], 0)
  | exKeys, f :: rest =>
    let r := Store.Create cfg f.1 value
      (if f.1 ∈ exKeys then .ok sample else .error .errNotExists) putResp
    let exKeys2 := if r.1.putIssued = true ∧ r.2 = .ok () then f.1 :: exKeys else exKeys
    let tl := runCreateFlightsK cfg value sample putResp exKeys2 rest
    ((f.1, sfDoShared f.2 r.2) :: tl.1, (if r.1.putIssued then 1 else 0) + tl.2)

end Credhub

namespace Staticlist

/-- Errors of the static-list store, as the kes sentinels its fmt.Errorf
messages wrap (errors.Is resolves the wrapped sentinel). -/
inductive KesErr where
  | keyExists
  | notAllowed
  | keyNotFound
deriving DecidableEq

/-- The static-list configuration from staticlist.go: the fixed entries map,
modelled as an association list (one entry per key). -/
structure Config where
  Entries : List (List Nat × List Nat)

/-- Map lookup, as the Go two-result map index the operations use. -/
def Config.find (c : Config) (name : List Nat) : Option (List Nat) :=
  c.Entries.lookup name

namespace Store

/-- Create from staticlist.go: an existing key is the ErrKeyExists failure,
any other key is the ErrNotAllowed failure; it never succeeds. -/
def Create (c : Config) (name : List Nat) (_value : List Nat) : Except KesErr Unit :=
  match c.find name with
  | some _ => .error .keyExists
  | none => .error .notAllowed

/-- Set from staticlist.go: always the ErrNotAllowed failure. -/
def Set (_c : Config) (name : List Nat) (_value : List Nat) : Except KesErr Unit :=
  let _ := name
  .error .notAllowed

/-- Get from staticlist.go: the mapped value, or the ErrKeyNotFound failure. -/
def Get (c : Config) (name : List Nat) : Except KesErr (List Nat) :=
  match c.find name with
  | some v => .ok v
  | none => .error .keyNotFound

/-- Delete from staticlist.go: a missing key is the ErrKeyNotFound failure,
an existing key is the ErrNotAllowed failure; it never succeeds. -/
def Delete (c : Config) (name : List Nat) : Except KesErr Unit :=
  match c.find name with
  | some _ => .error .notAllowed
  | none => .error .keyNotFound

/-- List from staticlist.go: materializes the map's keys into the same
iterator shape (the association-list order stands for Go's map iteration
order, which the source does not fix). -/
def List' (c : Config) (ctxErr : Option Nat) : Credhub.keysIter :=
  { keys := c.Entries.map Prod.fst, index := 0, ctxErr := ctxErr }

end Store

end Staticlist

namespace Credhub

/-! ### Iterator lemmas -/

theorem nextOutputs_past_end : ∀ (m : Nat) (s : keysIter), s.keys.length ≤ s.index →
    keysIter.nextOutputs s m = List.replicate m ([], false)
  | 0, _, _ => rfl
  | m + 1, s, h => by
    have hlt : ¬ s.index < s.keys.length := by omega
    have hm := nextOutputs_past_end m s h
    simp only [keysIter.nextOutputs, keysIter.Next, dif_neg hlt]
    simp [List.replicate_succ, decide_eq_false hlt]
    exact hm

theorem specIterOutputs_past_end : ∀ (m : Nat) (ks : List (List Nat)) (j : Nat),
    ks.length ≤ j → specIterOutputs ks j m = List.replicate m ([], false)
  | 0, _, _, _ => rfl
  | m + 1, ks, j, h => by
    have hlt : ¬ j < ks.length := by omega
    simp only [specIterOutputs, dif_neg hlt]
    simp [List.replicate_succ, specIterOutputs_past_end m ks (j + 1) (by omega)]

theorem nextOutputs_eq_spec : ∀ (m : Nat) (ks : List (List Nat)) (j : Nat) (e : Option Nat),
    keysIter.nextOutputs ⟨ks, j, e⟩ m = specIterOutputs ks j m
  | 0, _, _, _ => rfl
  | m + 1, ks, j, e => by
    by_cases h : j < ks.length
    · have ih := nextOutputs_eq_spec m ks (j + 1) e
      simp only [keysIter.nextOutputs, keysIter.Next, specIterOutputs, dif_pos h]
      simpa using ih
    · have h1 := nextOutputs_past_end m ⟨ks, j, e⟩ (by simpa using Nat.le_of_not_lt h)
      have h2 := specIterOutputs_past_end m ks (j + 1)
        (by have := Nat.le_of_not_lt h; omega)
      simp only [keysIter.nextOutputs, keysIter.Next, specIterOutputs, dif_neg h]
      simp [decide_eq_false h, h2]
      exact h1

theorem trimPfx_append (p k : List Nat) : trimPfx (p ++ k) p = k := by
  simp [trimPfx, isPfxOf_append, List.drop_left]

/-! ### Concrete fixtures used by witnesses and counterexamples -/

/-- Byte form of the namespace "/ns" used in concrete instances. -/
def nsEx : List Nat := [47, 110, 115]

/-- Concrete remote-store configuration. -/
def cfgEx : Config := { Namespace := nsEx, ForceBase64ValuesEncoding := false }

/-- Byte form of the key "k". -/
def keyEx : List Nat := [107]

/-- Byte form of the value "v". -/
def valEx : List Nat := [118]

/-- A transport-successful 200 response with an empty body. -/
def okResp : HttpResponse := { err := none, statusCode := 200, status := [], bodyRaw := [] }

/-- A transport-successful 404 response. -/
def resp404 : HttpResponse := { err := none, statusCode := 404, status := [52, 48, 52], bodyRaw := [] }

/-- A transport-successful 500 response with a nonempty body. -/
def resp500 : HttpResponse := { err := none, statusCode := 500, status := [53, 48, 48], bodyRaw := [98] }

/-- A Get response: 200 with exactly one version whose value string is "v". -/
def getRespEx : GetResponse :=
  { err := none, statusCode := 200, status := [], bodyRaw := [], dataValues := some [[118]] }

/-- A Get response: 404, body irrelevant. -/
def getResp404 : GetResponse :=
  { err := none, statusCode := 404, status := [52, 48, 52], bodyRaw := [], dataValues := none }

/-- The two stripped keys "k1" and "k2" of the List contract test. -/
def ksEx : List (List Nat) := [[107, 49], [107, 50]]

/-- A List response: 200 with names "/ns/k1" and "/ns/k2". -/
def listRespEx : ListResponse :=
  { err := none, statusCode := 200, status := [], bodyRaw := [],
    credNames := some [[47, 110, 115, 47, 107, 49], [47, 110, 115, 47, 107, 50]] }

end Credhub

namespace Staticlist

/-- The fixed two-entry map of the staticlist tests: key1 -> value1, key2 -> value2. -/
def slCfgEx : Config :=
  { Entries := [([107, 101, 121, 49], [118, 97, 108, 117, 101, 49]),
                ([107, 101, 121, 50], [118, 97, 108, 117, 101, 50])] }

end Staticlist

/-! ### Claims -/

/-- C1: for every transport-successful Get response, a 2xx status makes the
parsed version list decide the outcome — zero entries is the not-found
error, exactly one entry yields that entry's decoded value, more than one
entry is an error and never any value; a 404 status is the not-found error;
any other non-2xx status is the generic error carrying status and raw body. -/
theorem C1_get_response_semantics (r : Credhub.GetResponse) (hok : r.err = none) :
    (r.statusCode = 404 → Credhub.Store.Get r = .error .errNotExists) ∧
    (r.statusCode ≠ 404 → Credhub.IsStatusCode2xx r.statusCode = false →
      Credhub.Store.Get r = .error (.remoteErr .get r.status r.bodyRaw)) ∧
    (Credhub.IsStatusCode2xx r.statusCode = true →
      (r.dataValues = some [] → Credhub.Store.Get r = .error .errNotExists) ∧
      (∀ e v, r.dataValues = some [e] → Credhub.JsonStringToBytes e = some v →
        Credhub.Store.Get r = .ok v) ∧
      (∀ ds, r.dataValues = some ds → 1 < ds.length →
        Credhub.Store.Get r = .error (.multipleEntries ds.length) ∧
        ∀ w, Credhub.Store.Get r ≠ .ok w)) := by
  refine ⟨fun h404 => ?_, fun hne hn2 => ?_, fun h2 => ?_⟩
  · simp [Credhub.Store.Get, hok, h404]
  · simp [Credhub.Store.Get, hok, hne, hn2]
  · have hne : r.statusCode ≠ 404 := by
      simp only [Credhub.IsStatusCode2xx, Bool.and_eq_true, decide_eq_true_eq] at h2
      omega
    refine ⟨fun hz => ?_, fun e v he hv => ?_, fun ds hds hlen => ?_⟩
    · simp [Credhub.Store.Get, hok, hne, h2, hz]
    · simp [Credhub.Store.Get, hok, hne, h2, he, hv]
    · have hz : ds.length ≠ 0 := by omega
      have heq : Credhub.Store.Get r = .error (.multipleEntries ds.length) := by
        simp [Credhub.Store.Get, hok, hne, h2, hds, hz, hlen]
      exact ⟨heq, fun w hw => by rw [heq] at hw; cases hw⟩

/-- C1 witness: a 200 response whose version list has exactly one entry with
value string "v" makes Get return those bytes. -/
theorem C1_witness : Credhub.Store.Get Credhub.getRespEx = .ok [118] :=
  ((C1_get_response_semantics Credhub.getRespEx rfl).2.2 (by decide)).2.1
    [118] [118] rfl (by decide)

/-- C2: Create runs under the dedup key namespace/key and performs the
sequence — a Get value means the already-exists error with no write, a Get
not-found means the unconditional put write with put's result returned, and
any other Get error is propagated unchanged with no write. -/
theorem C2_create_sequence (cfg : Credhub.Config) (name value : List Nat)
    (getRes : Except Credhub.GoErr (List Nat)) (putResp : Credhub.HttpResponse) :
    (Credhub.Store.Create cfg name value getRes putResp).1.dedupKey
        = some (cfg.Namespace ++ Credhub.slashByte :: name) ∧
    (∀ v, getRes = .ok v →
      Credhub.Store.Create cfg name value getRes putResp =
        ({ dedupKey := some (cfg.Namespace ++ Credhub.slashByte :: name), putIssued := false },
         .error .errExists)) ∧
    (getRes = .error .errNotExists →
      Credhub.Store.Create cfg name value getRes putResp =
        ({ dedupKey := some (cfg.Namespace ++ Credhub.slashByte :: name), putIssued := true },
         Credhub.Store.putInterp putResp)) ∧
    (∀ e, getRes = .error e → e ≠ .errNotExists →
      Credhub.Store.Create cfg name value getRes putResp =
        ({ dedupKey := some (cfg.Namespace ++ Credhub.slashByte :: name), putIssued := false },
         .error e)) := by
  refine ⟨?_, fun v hv => ?_, fun hn => ?_, fun e he hne => ?_⟩
  · cases getRes with
    | ok v => simp [Credhub.Store.Create]
    | error e => cases e <;> simp [Credhub.Store.Create]
  · subst hv; simp [Credhub.Store.Create]
  · subst hn; simp [Credhub.Store.Create, Credhub.Store.put]
  · subst he
    cases e with
    | errNotExists => exact absurd rfl hne
    | errExists => simp [Credhub.Store.Create]
    | remoteErr op st b => simp [Credhub.Store.Create]
    | multipleEntries n => simp [Credhub.Store.Create]
    | jsonDecodeErr => simp [Credhub.Store.Create]
    | base64DecodeErr => simp [Credhub.Store.Create]
    | transportErr c => simp [Credhub.Store.Create]

/-- C2 witness: on a concrete store, a not-found Get makes Create issue the
write and return put's interpretation of the write response. -/
theorem C2_witness :
    Credhub.Store.Create Credhub.cfgEx Credhub.keyEx Credhub.valEx
        (.error .errNotExists) Credhub.okResp =
      ({ dedupKey := some (Credhub.nsEx ++ Credhub.slashByte :: Credhub.keyEx),
         putIssued := true },
       Credhub.Store.putInterp Credhub.okResp) :=
  (C2_create_sequence Credhub.cfgEx Credhub.keyEx Credhub.valEx
    (.error .errNotExists) Credhub.okResp).2.2.1 rfl

/-- C3: the value codec round-trips — decoding the encoded form of any byte
sequence restores the bytes, with forcing off and with forcing on. -/
theorem C3_codec_roundTrip (v : List Nat) (hv : ∀ b ∈ v, b < 256) :
    Credhub.JsonStringToBytes (Credhub.BytesToJsonString v false) = some v ∧
    Credhub.JsonStringToBytes (Credhub.BytesToJsonString v true) = some v :=
  ⟨Credhub.jsonString_roundTrip v hv false, Credhub.jsonString_roundTrip v hv true⟩

/-- C3 witness: the round trip evaluated on the contract-test value
"string-value". -/
theorem C3_witness :
    Credhub.JsonStringToBytes (Credhub.BytesToJsonString Credhub.strValueBytes false) =
        some Credhub.strValueBytes ∧
    Credhub.JsonStringToBytes (Credhub.BytesToJsonString Credhub.strValueBytes true) =
        some Credhub.strValueBytes :=
  C3_codec_roundTrip Credhub.strValueBytes (by decide)

/-- C4: encode produces the "Base64:"-marked base64 form exactly when
forcing is on, or the bytes are not valid UTF-8 text, or the text itself
starts with the marker; in every other case the output is the raw bytes. -/
theorem C4_encode_marking (v : List Nat) (f : Bool) :
    (Credhub.BytesToJsonString v f = Credhub.b64Marker ++ Credhub.b64Encode v ↔
      (f = true ∨ Credhub.utf8Valid v = false ∨ Credhub.b64Marker.isPrefixOf v = true)) ∧
    ((f = false ∧ Credhub.utf8Valid v = true ∧ Credhub.b64Marker.isPrefixOf v = false) →
      Credhub.BytesToJsonString v f = v) := by
  constructor
  · constructor
    · intro he
      by_cases hc : (f || !Credhub.utf8Valid v || Credhub.b64Marker.isPrefixOf v) = true
      · simp only [Bool.or_eq_true, Bool.not_eq_true'] at hc
        rcases hc with (hf | hu) | hp
        · exact Or.inl hf
        · exact Or.inr (Or.inl hu)
        · exact Or.inr (Or.inr hp)
      · exfalso
        rw [Credhub.BytesToJsonString, if_neg hc] at he
        have hpre : Credhub.b64Marker.isPrefixOf v = true := by
          rw [he]
          exact Credhub.isPfxOf_append _ _
        simp [hpre] at hc
    · intro hd
      rcases hd with hf | hu | hp
      · simp [Credhub.BytesToJsonString, hf]
      · simp [Credhub.BytesToJsonString, hu]
      · simp [Credhub.BytesToJsonString, hp]
  · rintro ⟨hf, hu, hp⟩
    simp [Credhub.BytesToJsonString, hf, hu, hp]

/-- C4 witness: forcing marks "string-value", and with no forcing the valid
unmarked text passes through raw. -/
theorem C4_witness :
    Credhub.BytesToJsonString Credhub.strValueBytes true =
        Credhub.b64Marker ++ Credhub.b64Encode Credhub.strValueBytes ∧
    Credhub.BytesToJsonString Credhub.strValueBytes false = Credhub.strValueBytes :=
  ⟨(C4_encode_marking Credhub.strValueBytes true).1.mpr (Or.inl rfl),
   (C4_encode_marking Credhub.strValueBytes false).2 ⟨rfl, by decide, by decide⟩⟩

/-- C5 counterexample: a concrete Set call does hand the dedup key
namespace/key to the single-flight group, refuting the claim that Set never
passes through the Dedup Coordinator. -/
theorem C5_counterexample :
    (Credhub.Store.Set Credhub.cfgEx Credhub.keyEx Credhub.valEx Credhub.okResp).1.dedupKey =
        some [47, 110, 115, 47, 107] ∧
    ¬ (Credhub.Store.Set Credhub.cfgEx Credhub.keyEx Credhub.valEx
        Credhub.okResp).1.dedupKey = none := by
  constructor
  · rfl
  · intro h
    cases h

/-- C5 amended: Set unconditionally calls the private put helper — it always
issues the one write request put builds and returns put's interpretation of
the response — and the call runs under the Dedup Coordinator's single-flight
group keyed namespace/key, the same key Create uses. -/
theorem C5_set_runs_put_under_dedup (cfg : Credhub.Config) (name value : List Nat)
    (r : Credhub.HttpResponse) :
    Credhub.Store.Set cfg name value r =
      ({ dedupKey := some (cfg.Namespace ++ Credhub.slashByte :: name), putIssued := true },
       Credhub.Store.putRequest cfg name value, Credhub.Store.putInterp r) := rfl

/-- C6: a transport-successful 404 response makes Get and Delete both return
the distinguished not-found error and never the generic remote error; a 2xx
Delete succeeds and any other non-2xx Delete is the generic error carrying
status and body. -/
theorem C6_notFound_classification (rg : Credhub.GetResponse) (rd : Credhub.HttpResponse)
    (hg : rg.err = none) (hd : rd.err = none) :
    (rg.statusCode = 404 →
      Credhub.Store.Get rg = .error .errNotExists ∧
      ∀ op st b, Credhub.Store.Get rg ≠ .error (.remoteErr op st b)) ∧
    (rd.statusCode = 404 →
      Credhub.Store.Delete rd = .error .errNotExists ∧
      ∀ op st b, Credhub.Store.Delete rd ≠ .error (.remoteErr op st b)) ∧
    (Credhub.IsStatusCode2xx rd.statusCode = true → Credhub.Store.Delete rd = .ok ()) ∧
    (rd.statusCode ≠ 404 → Credhub.IsStatusCode2xx rd.statusCode = false →
      Credhub.Store.Delete rd = .error (.remoteErr .del rd.status rd.bodyRaw)) := by
  refine ⟨fun h404 => ?_, fun h404 => ?_, fun h2 => ?_, fun hne hn2 => ?_⟩
  · have heq : Credhub.Store.Get rg = .error .errNotExists := by
      simp [Credhub.Store.Get, hg, h404]
    exact ⟨heq, fun op st b hw => by rw [heq] at hw; cases hw⟩
  · have heq : Credhub.Store.Delete rd = .error .errNotExists := by
      simp [Credhub.Store.Delete, hd, h404]
    exact ⟨heq, fun op st b hw => by rw [heq] at hw; cases hw⟩
  · have hne : rd.statusCode ≠ 404 := by
      simp only [Credhub.IsStatusCode2xx, Bool.and_eq_true, decide_eq_true_eq] at h2
      omega
    simp [Credhub.Store.Delete, hd, hne, h2]
  · simp [Credhub.Store.Delete, hd, hne, hn2]

/-- C6 witness: evaluated on the concrete 404, 200 and 500 responses. -/
theorem C6_witness :
    Credhub.Store.Get Credhub.getResp404 = .error .errNotExists ∧
    Credhub.Store.Delete Credhub.resp404 = .error .errNotExists ∧
    Credhub.Store.Delete Credhub.okResp = .ok () ∧
    Credhub.Store.Delete Credhub.resp500 =
      .error (.remoteErr .del Credhub.resp500.status Credhub.resp500.bodyRaw) :=
  ⟨((C6_notFound_classification Credhub.getResp404 Credhub.resp404 rfl rfl).1 rfl).1,
   ((C6_notFound_classification Credhub.getResp404 Credhub.resp404 rfl rfl).2.1 rfl).1,
   (C6_notFound_classification Credhub.getResp404 Credhub.okResp rfl rfl).2.2.1 (by decide),
   (C6_notFound_classification Credhub.getResp404 Credhub.resp500 rfl rfl).2.2.2
     (by decide) (by decide)⟩

/-- C7: a successful List over names of the form namespace/k1 .. namespace/kn
materializes exactly k1 .. kn in response order, and every run of Next calls
yields the keys in order, the flag true on every yield but the last, the
empty key with false from then on, and immediately so when the set is empty. -/
theorem C7_list_iteration (cfg : Credhub.Config) (r : Credhub.ListResponse)
    (ks : List (List Nat)) (ctxErr : Option Nat)
    (he : r.err = none) (h2 : Credhub.IsStatusCode2xx r.statusCode = true)
    (hn : r.credNames = some (ks.map (fun k => cfg.Namespace ++ Credhub.slashByte :: k))) :
    Credhub.Store.List' cfg r ctxErr = .ok ⟨ks, 0, ctxErr⟩ ∧
    ∀ m, Credhub.keysIter.nextOutputs ⟨ks, 0, ctxErr⟩ m = Credhub.specIterOutputs ks 0 m := by
  constructor
  · have hstrip : ∀ k : List Nat,
        Credhub.trimPfx (cfg.Namespace ++ Credhub.slashByte :: k)
          (cfg.Namespace ++ [Credhub.slashByte]) = k := by
      intro k
      have : cfg.Namespace ++ Credhub.slashByte :: k =
          (cfg.Namespace ++ [Credhub.slashByte]) ++ k := by simp
      rw [this, Credhub.trimPfx_append]
    simp only [Credhub.Store.List', he, h2, hn, Bool.not_true, Bool.false_eq_true,
      if_false, List.map_map]
    congr 1
    refine congrArg (fun l => Credhub.keysIter.mk l 0 ctxErr) ?_
    calc List.map ((fun n => Credhub.trimPfx n (cfg.Namespace ++ [Credhub.slashByte])) ∘
            fun k => cfg.Namespace ++ Credhub.slashByte :: k) ks
        = List.map id ks := List.map_congr_left (fun k _ => hstrip k)
      _ = ks := List.map_id ks
  · intro m
    exact Credhub.nextOutputs_eq_spec m ks 0 ctxErr

/-- C7 witness: the concrete List response with names "/ns/k1", "/ns/k2"
yields "k1" with true, "k2" with false, then the empty key with false. -/
theorem C7_witness :
    Credhub.Store.List' Credhub.cfgEx Credhub.listRespEx none =
        .ok ⟨Credhub.ksEx, 0, none⟩ ∧
    Credhub.keysIter.nextOutputs ⟨Credhub.ksEx, 0, none⟩ 3 =
        Credhub.specIterOutputs Credhub.ksEx 0 3 :=
  ⟨(C7_list_iteration Credhub.cfgEx Credhub.listRespEx Credhub.ksEx none rfl
      (by decide) (by decide)).1,
   (C7_list_iteration Credhub.cfgEx Credhub.listRespEx Credhub.ksEx none rfl
      (by decide) (by decide)).2 3⟩

/-- One schedule step for a key the backend already holds: the flight's
callers all observe the already-exists error, no write is issued, and the
backend state is unchanged. -/
theorem runK_cons_present (cfg : Credhub.Config) (value sample : List Nat)
    (putResp : Credhub.HttpResponse) (exKeys : List (List Nat))
    (name : List Nat) (m : Nat) (rest : List (List Nat × Nat)) (h : name ∈ exKeys) :
    Credhub.runCreateFlightsK cfg value sample putResp exKeys ((name, m) :: rest) =
      ((name, List.replicate m (.error .errExists)) ::
          (Credhub.runCreateFlightsK cfg value sample putResp exKeys rest).1,
       (Credhub.runCreateFlightsK cfg value sample putResp exKeys rest).2) := by
  simp only [Credhub.runCreateFlightsK, if_pos h]
  simp [Credhub.Store.Create, Credhub.sfDoShared]

/-- One schedule step for a key the backend does not hold: the flight's
callers all observe put's result, one write is issued, and the key is added
to the backend exactly when the write succeeded. -/
theorem runK_cons_absent (cfg : Credhub.Config) (value sample : List Nat)
    (putResp : Credhub.HttpResponse) (exKeys : List (List Nat))
    (name : List Nat) (m : Nat) (rest : List (List Nat × Nat)) (h : ¬ name ∈ exKeys) :
    Credhub.runCreateFlightsK cfg value sample putResp exKeys ((name, m) :: rest) =
      ((name, List.replicate m (Credhub.Store.putInterp putResp)) ::
          (Credhub.runCreateFlightsK cfg value sample putResp
            (if Credhub.Store.putInterp putResp = .ok () then name :: exKeys else exKeys)
            rest).1,
       1 + (Credhub.runCreateFlightsK cfg value sample putResp
            (if Credhub.Store.putInterp putResp = .ok () then name :: exKeys else exKeys)
            rest).2) := by
  simp only [Credhub.runCreateFlightsK, if_neg h]
  simp [Credhub.Store.Create, Credhub.Store.put, Credhub.sfDoShared]

/-- After a successful Create, every later flight for the same key has all
its callers observe the already-exists error and issues no write. -/
theorem runK_all_present (cfg : Credhub.Config) (value sample : List Nat)
    (putResp : Credhub.HttpResponse) (k : List Nat) :
    ∀ (ms : List Nat) (exKeys : List (List Nat)), k ∈ exKeys →
      Credhub.runCreateFlightsK cfg value sample putResp exKeys
          (ms.map (fun mi => (k, mi))) =
        (ms.map (fun mi => (k, List.replicate mi (.error .errExists))), 0)
  | [], _, _ => rfl
  | mi :: ms, exKeys, h => by
    rw [List.map_cons, runK_cons_present cfg value sample putResp exKeys k mi _ h,
        runK_all_present cfg value sample putResp k ms exKeys h, List.map_cons]

/-- Flights for one key are independent of interleaved flights for other
keys: projecting a mixed schedule's outcomes onto the flights of key k gives
exactly the outcomes of running only k's flights, from any backend state
agreeing on k. -/
theorem runK_indep (cfg : Credhub.Config) (value sample : List Nat)
    (putResp : Credhub.HttpResponse) (k : List Nat) :
    ∀ (s : List (List Nat × Nat)) (ex1 ex2 : List (List Nat)),
      ((k ∈ ex1) ↔ (k ∈ ex2)) →
      (Credhub.runCreateFlightsK cfg value sample putResp ex1 s).1.filter
          (fun p => decide (p.1 = k)) =
        (Credhub.runCreateFlightsK cfg value sample putResp ex2
          (s.filter (fun p => decide (p.1 = k)))).1
  | [], _, _, _ => rfl
  | (name, m) :: rest, ex1, ex2, hag => by
    by_cases hk : name = k
    · subst hk
      have hsched : List.filter (fun p => decide (p.1 = name)) ((name, m) :: rest) =
          (name, m) :: List.filter (fun p => decide (p.1 = name)) rest := by
        simp
      by_cases h2 : name ∈ ex2
      · have h1 : name ∈ ex1 := hag.mpr h2
        have ih := runK_indep cfg value sample putResp name rest ex1 ex2 hag
        rw [hsched, runK_cons_present cfg value sample putResp ex1 name m rest h1,
            runK_cons_present cfg value sample putResp ex2 name m _ h2]
        simp [ih]
      · have h1 : ¬ name ∈ ex1 := fun hx => h2 (hag.mp hx)
        have hag2 : ((name ∈ (if Credhub.Store.putInterp putResp = .ok ()
              then name :: ex1 else ex1)) ↔
            (name ∈ (if Credhub.Store.putInterp putResp = .ok ()
              then name :: ex2 else ex2))) := by
          by_cases hc : Credhub.Store.putInterp putResp = .ok ()
          · simp [hc]
          · simp [hc, hag]
        have ih := runK_indep cfg value sample putResp name rest _ _ hag2
        rw [hsched, runK_cons_absent cfg value sample putResp ex1 name m rest h1,
            runK_cons_absent cfg value sample putResp ex2 name m _ h2]
        simp [ih]
    · have hsched : List.filter (fun p => decide (p.1 = k)) ((name, m) :: rest) =
          List.filter (fun p => decide (p.1 = k)) rest := by
        simp [hk]
      have hag2 : ∀ st2 : List (List Nat),
          ((k ∈ st2) ↔ (k ∈ ex2)) →
          ((k ∈ (if Credhub.Store.putInterp putResp = .ok ()
              then name :: st2 else st2)) ↔ (k ∈ ex2)) := by
        intro st2 hst
        by_cases hc : Credhub.Store.putInterp putResp = .ok ()
        · rw [if_pos hc, List.mem_cons]
          constructor
          · intro h
            rcases h with h | h
            · exact absurd h.symm hk
            · exact hst.mp h
          · intro h
            exact Or.inr (hst.mpr h)
        · rw [if_neg hc]
          exact hst
      by_cases hex : name ∈ ex1
      · have ih := runK_indep cfg value sample putResp k rest ex1 ex2 hag
        rw [hsched, runK_cons_present cfg value sample putResp ex1 name m rest hex]
        simp [hk, ih]
      · have ih := runK_indep cfg value sample putResp k rest
          (if Credhub.Store.putInterp putResp = .ok () then name :: ex1 else ex1) ex2
          (hag2 ex1 hag)
        rw [hsched, runK_cons_absent cfg value sample putResp ex1 name m rest hex]
        simp [hk, ih]

/-- C8 counterexample: two concurrent Create calls for an absent key sharing
the one in-flight execution both observe success; exactly one write happens
but the remaining caller does not observe the already-exists error, refuting
the claim as stated. -/
theorem C8_counterexample :
    Credhub.runCreateFlightsK Credhub.cfgEx Credhub.valEx Credhub.valEx
        Credhub.okResp [] [(Credhub.keyEx, 2)] =
      ([(Credhub.keyEx, [.ok (), .ok ()])], 1) ∧
    ¬ (((Credhub.runCreateFlightsK Credhub.cfgEx Credhub.valEx Credhub.valEx
        Credhub.okResp [] [(Credhub.keyEx, 2)]).1.headD (Credhub.keyEx, [])).2.count
          (.error .errExists) = 1) := by
  decide

/-- C8 amended: for Create calls on an absent key, exactly one write request
is executed; the callers sharing the single in-flight execution all receive
that execution's result — success when the write succeeds, or its identical
failure when the write fails — only callers whose flight starts after a
completed successful Create observe the already-exists error; and Create
flights with different dedup keys execute fully independently: the outcomes
of one key's flights are the same whether or not flights for other keys are
interleaved with them. -/
theorem C8_single_write_shared_result (cfg : Credhub.Config)
    (value sample : List Nat) (putResp : Credhub.HttpResponse)
    (k : List Nat) (m : Nat) (ms : List Nat) (hne : putResp.err = none) :
    (Credhub.IsStatusCode2xx putResp.statusCode = true →
      Credhub.runCreateFlightsK cfg value sample putResp []
          ((k, m) :: ms.map (fun mi => (k, mi))) =
        ((k, List.replicate m (.ok ())) ::
          ms.map (fun mi => (k, List.replicate mi (.error .errExists))), 1)) ∧
    (Credhub.IsStatusCode2xx putResp.statusCode = false →
      Credhub.runCreateFlightsK cfg value sample putResp [] [(k, m)] =
        ([(k, List.replicate m
            (.error (.remoteErr .put putResp.status putResp.bodyRaw)))], 1)) ∧
    (∀ (s : List (List Nat × Nat)) (ex1 ex2 : List (List Nat)),
      ((k ∈ ex1) ↔ (k ∈ ex2)) →
      (Credhub.runCreateFlightsK cfg value sample putResp ex1 s).1.filter
          (fun p => decide (p.1 = k)) =
        (Credhub.runCreateFlightsK cfg value sample putResp ex2
          (s.filter (fun p => decide (p.1 = k)))).1) := by
  refine ⟨fun h2 => ?_, fun hn2 => ?_, fun s ex1 ex2 hag => ?_⟩
  · have hput : Credhub.Store.putInterp putResp = .ok () := by
      simp [Credhub.Store.putInterp, hne, h2]
    rw [runK_cons_absent cfg value sample putResp [] k m _ (by simp), hput, if_pos rfl,
        runK_all_present cfg value sample putResp k ms (k :: []) (by simp)]
    rfl
  · have hput : Credhub.Store.putInterp putResp =
        .error (.remoteErr .put putResp.status putResp.bodyRaw) := by
      simp [Credhub.Store.putInterp, hne, hn2]
    rw [runK_cons_absent cfg value sample putResp [] k m _ (by simp), hput,
        if_neg (by intro hc; cases hc)]
    rfl
  · exact runK_indep cfg value sample putResp k s ex1 ex2 hag

/-- C8 witness: two callers share the successful flight, a later caller sees
already-exists, with one write in total; a failing write is shared
identically by both concurrent callers; and projecting a two-key schedule
onto one key's flight gives that flight's isolated outcome. -/
theorem C8_witness :
    Credhub.runCreateFlightsK Credhub.cfgEx Credhub.valEx Credhub.valEx Credhub.okResp []
        ((Credhub.keyEx, 2) :: [1].map (fun mi => (Credhub.keyEx, mi))) =
      ((Credhub.keyEx, List.replicate 2 (.ok ())) ::
        [1].map (fun mi => (Credhub.keyEx, List.replicate mi (.error .errExists))), 1) ∧
    Credhub.runCreateFlightsK Credhub.cfgEx Credhub.valEx Credhub.valEx Credhub.resp500 []
        [(Credhub.keyEx, 2)] =
      ([(Credhub.keyEx, List.replicate 2
          (.error (.remoteErr .put Credhub.resp500.status Credhub.resp500.bodyRaw)))], 1) ∧
    (Credhub.runCreateFlightsK Credhub.cfgEx Credhub.valEx Credhub.valEx Credhub.okResp []
        [(Credhub.keyEx, 1), ([113], 1)]).1.filter
          (fun p => decide (p.1 = Credhub.keyEx)) =
      (Credhub.runCreateFlightsK Credhub.cfgEx Credhub.valEx Credhub.valEx Credhub.okResp []
        ([(Credhub.keyEx, 1), ([113], 1)].filter
          (fun p => decide (p.1 = Credhub.keyEx)))).1 :=
  ⟨(C8_single_write_shared_result Credhub.cfgEx Credhub.valEx Credhub.valEx
      Credhub.okResp Credhub.keyEx 2 [1] rfl).1 (by decide),
   (C8_single_write_shared_result Credhub.cfgEx Credhub.valEx Credhub.valEx
      Credhub.resp500 Credhub.keyEx 2 [] rfl).2.1 (by decide),
   (C8_single_write_shared_result Credhub.cfgEx Credhub.valEx Credhub.valEx
      Credhub.okResp Credhub.keyEx 2 [] rfl).2.2
     [(Credhub.keyEx, 1), ([113], 1)] [] [] Iff.rfl⟩

/-- C9 counterexample: on the fixed test map, Create of the existing key
key1 returns the already-exists failure, not the not-allowed one, refuting
the claim that every mutating operation returns NotAllowed. -/
theorem C9_counterexample :
    Staticlist.Store.Create Staticlist.slCfgEx [107, 101, 121, 49] [120] =
        .error .keyExists ∧
    ¬ (Staticlist.Store.Create Staticlist.slCfgEx [107, 101, 121, 49] [120] =
        .error .notAllowed) := by
  decide

/-- C9 amended: Set always returns the not-allowed failure; Create returns
the already-exists failure on a present key and not-allowed otherwise;
Delete returns the not-found failure on an absent key and not-allowed
otherwise — every mutating operation fails and the map is never changed —
while Get returns the mapped value or not-found, and List materializes the
map's keys. -/
theorem C9_staticlist_semantics (c : Staticlist.Config) (name value : List Nat)
    (ctxErr : Option Nat) :
    Staticlist.Store.Set c name value = .error .notAllowed ∧
    (∀ v, c.find name = some v →
      Staticlist.Store.Create c name value = .error .keyExists ∧
      Staticlist.Store.Delete c name = .error .notAllowed ∧
      Staticlist.Store.Get c name = .ok v) ∧
    (c.find name = none →
      Staticlist.Store.Create c name value = .error .notAllowed ∧
      Staticlist.Store.Delete c name = .error .keyNotFound ∧
      Staticlist.Store.Get c name = .error .keyNotFound) ∧
    (Staticlist.Store.List' c ctxErr).keys = c.Entries.map Prod.fst := by
  refine ⟨rfl, fun v hv => ?_, fun hn => ?_, rfl⟩
  · exact ⟨by simp [Staticlist.Store.Create, hv],
      by simp [Staticlist.Store.Delete, hv],
      by simp [Staticlist.Store.Get, hv]⟩
  · exact ⟨by simp [Staticlist.Store.Create, hn],
      by simp [Staticlist.Store.Delete, hn],
      by simp [Staticlist.Store.Get, hn]⟩

/-- C9 witness: evaluated on the fixed test map at the existing key key1 and
the absent key new. -/
theorem C9_witness :
    Staticlist.Store.Set Staticlist.slCfgEx [107, 101, 121, 49] [120] =
        .error .notAllowed ∧
    Staticlist.Store.Delete Staticlist.slCfgEx [107, 101, 121, 49] = .error .notAllowed ∧
    Staticlist.Store.Get Staticlist.slCfgEx [107, 101, 121, 49] =
        .ok [118, 97, 108, 117, 101, 49] ∧
    Staticlist.Store.Create Staticlist.slCfgEx [110, 101, 119] [120] =
        .error .notAllowed ∧
    Staticlist.Store.Delete Staticlist.slCfgEx [110, 101, 119] = .error .keyNotFound :=
  ⟨(C9_staticlist_semantics Staticlist.slCfgEx [107, 101, 121, 49] [120] none).1,
   ((C9_staticlist_semantics Staticlist.slCfgEx [107, 101, 121, 49] [120] none).2.1
      [118, 97, 108, 117, 101, 49] (by decide)).2.1,
   ((C9_staticlist_semantics Staticlist.slCfgEx [107, 101, 121, 49] [120] none).2.1
      [118, 97, 108, 117, 101, 49] (by decide)).2.2,
   ((C9_staticlist_semantics Staticlist.slCfgEx [110, 101, 119] [120] none).2.2.1
      (by decide)).1,
   ((C9_staticlist_semantics Staticlist.slCfgEx [110, 101, 119] [120] none).2.2.1
      (by decide)).2.1⟩

/-- C10: after Close has discarded the key slice, every further Next call
returns the empty key and false, Close reported exactly the context's error,
and a repeated Close still returns only the context's error. -/
theorem C10_close_safety (s : Credhub.keysIter) (m : Nat) :
    Credhub.keysIter.nextOutputs s.Close.2 m = List.replicate m ([], false) ∧
    s.Close.1 = s.ctxErr ∧
    s.Close.2.Close = (s.ctxErr, s.Close.2) := by
  refine ⟨?_, rfl, ?_⟩
  · exact Credhub.nextOutputs_past_end m s.Close.2 (by simp [Credhub.keysIter.Close])
  · cases s
    simp [Credhub.keysIter.Close]
